import Mathlib

/-!
# Shallow embedding of the TURN relay core (`internal/relay/relay-server.go`)

The Go package keeps a process-wide slice `servers` of allocations guarded by
locks.  Here the registry is passed explicitly as a `List Server`; every
operation takes the registry state and returns the updated state together with
its Go return values.  Locks and goroutine scheduling are elided: every entry
point of the Go file performs its scan/mutation atomically under the registry
lock, so each operation is modelled as one atomic function on the state.
Go `nil`-able pointers and errors become `Option`.
-/

set_option autoImplicit false

namespace RelayServer

/-- `stun.TransportAddr` (external value type): IP plus port, compared by
value equality (`Equal`).  The IP is a byte sequence, the port a Go `int`. -/
structure TransportAddr where
  ip : List Nat
  port : Int
deriving DecidableEq, Repr

/-- `Permission`: `{IP net.IP; Port int; TimeToExpiry uint32}`. -/
structure Permission where
  ip : List Nat
  port : Int
  timeToExpiry : Nat
deriving DecidableEq, Repr

/-- `type Protocol int` with the two constants `UDP` and `TCP`. -/
inductive Protocol where
  | udp
  | tcp
deriving DecidableEq, Repr

/-- `FiveTuple`: source address, destination address, protocol. -/
structure FiveTuple where
  srcAddr : TransportAddr
  dstAddr : TransportAddr
  protocol : Protocol
deriving DecidableEq, Repr

/-- `func (a *FiveTuple) match(b *FiveTuple) bool` — named `matches` because
`match` is reserved in Lean.  Value equality on both addresses and the
protocol, exactly as `a.SrcAddr.Equal(b.SrcAddr) && a.DstAddr.Equal(b.DstAddr)
&& a.Protocol == b.Protocol`. -/
def FiveTuple.matches (a b : FiveTuple) : Bool :=
  decide (a.srcAddr = b.srcAddr) && decide (a.dstAddr = b.dstAddr) &&
    decide (a.protocol = b.protocol)

/-- `ChannelBind`: the bound peer address. -/
structure ChannelBind where
  addr : TransportAddr
deriving DecidableEq, Repr

/-- The private `server` struct.  The Go `map[uint16]ChannelBind` is embedded
as an association list with Go-map semantics (insert overwrites, lookup finds
the unique entry); the per-server `permissionsLock` is elided. -/
structure Server where
  fiveTuple : FiveTuple
  listeningPort : Int
  reservationToken : String
  username : String
  lifetime : Nat
  permissions : List Permission
  channelBindings : List (Nat × ChannelBind)
deriving DecidableEq, Repr

/-- Lookup in the `channelBindings` map: `cb, ok := s.channelBindings[channel]`. -/
def mapLookup (k : Nat) : List (Nat × ChannelBind) → Option ChannelBind
  | [] => none
  | (k', v) :: rest => if k' = k then some v else mapLookup k rest

/-- Insertion in the `channelBindings` map: `s.channelBindings[channel] = cb`
(overwrite when the key is present, otherwise add the entry). -/
def mapInsert (k : Nat) (v : ChannelBind) : List (Nat × ChannelBind) → List (Nat × ChannelBind)
  | [] => [(k, v)]
  | (k', v') :: rest => if k' = k then (k, v) :: rest else (k', v') :: mapInsert k v rest

/-- `func getServer(fiveTuple *FiveTuple) (server *server)`: the loop
`for _, s := range servers { if fiveTuple.match(s.FiveTuple) { server = s } }`
keeps overwriting the result, so the last match wins.  Embedded as the very
same left fold over the registry. -/
def getServer (fiveTuple : FiveTuple) (servers : List Server) : Option Server :=
  servers.foldl (fun acc s => if fiveTuple.matches s.fiveTuple then some s else acc) none

/-- `func Fulfilled(fiveTuple *FiveTuple) bool`: `getServer(fiveTuple) != nil`. -/
def Fulfilled (fiveTuple : FiveTuple) (servers : List Server) : Bool :=
  (getServer fiveTuple servers).isSome

/-- Right-recursive companion of `getServer`, convenient for induction. -/
def getServerRec (fiveTuple : FiveTuple) : List Server → Option Server
  | [] => none
  | s :: rest =>
    match getServerRec fiveTuple rest with
    | some t => some t
    | none => if fiveTuple.matches s.fiveTuple then some s else none

/-- Index-tracking version of `getServer`: returns the position of the (last)
matching server together with its value.  In Go, `getServer` returns a
*pointer* into the `servers` slice; callers that mutate through it
(`AddPermission`) update the slice element at this index. -/
def getServerIdx (fiveTuple : FiveTuple) : List Server → Option (Nat × Server)
  | [] => none
  | s :: rest =>
    match getServerIdx fiveTuple rest with
    | some (j, t) => some (j + 1, t)
    | none => if fiveTuple.matches s.fiveTuple then some (0, s) else none

/-- The Go test `p.Port == permission.Port && p.IP.Equal(permission.IP)`
applied to a stored permission `p`. -/
def samePair (permission p : Permission) : Bool :=
  decide (p.port = permission.port) && decide (p.ip = permission.ip)

/-- The body of `AddPermission` once the server is found: scan
`s.permissions`; if the `(IP, Port)` pair is already present return with no
change, otherwise append the new permission. -/
def addPermServer (permission : Permission) (s : Server) : Server :=
  if s.permissions.any (samePair permission) then s
  else { s with permissions := s.permissions ++ [permission] }

/-- `func AddPermission(fiveTuple *FiveTuple, permission *Permission) error`:
look up the (last-match) server; error if none; otherwise deduplicate by
`(IP, Port)` and append.  The pointer mutation `s.permissions = append(...)`
becomes `List.set` at the pointer's index. -/
def AddPermission (fiveTuple : FiveTuple) (permission : Permission)
    (servers : List Server) : List Server × Option String :=
  match getServerIdx fiveTuple servers with
  | none => (servers, some "Unable to add permission, server not found")
  | some (i, s) => (servers.set i (addPermServer permission s), none)

/-- `func GetSrcForRelay(addr *stun.TransportAddr) (*stun.TransportAddr, error)`:
first server whose `listeningPort` equals `addr.Port` yields its five-tuple's
source address; otherwise a `NotFoundError`. -/
def GetSrcForRelay (addr : TransportAddr) (servers : List Server) :
    Option TransportAddr × Option String :=
  match servers.find? (fun s => decide (addr.port = s.listeningPort)) with
  | some s => (some s.fiveTuple.srcAddr, none)
  | none => (none, some "No Relay is listening on port")

/-- `func GetRelayForSrc(addr *stun.TransportAddr) (int, error)`: first server
whose five-tuple source address equals `addr` yields its listening port;
otherwise `(0, NotFoundError)`. -/
def GetRelayForSrc (addr : TransportAddr) (servers : List Server) :
    Int × Option String :=
  match servers.find? (fun s => decide (s.fiveTuple.srcAddr = addr)) with
  | some s => (s.listeningPort, none)
  | none => (0, some "No Relay is allocated to this src")

/-- `func AddChannelBind(relayPort int, channel uint16, dstAddr *stun.TransportAddr) error`:
every server whose `listeningPort` equals `relayPort` gets
`channelBindings[channel] = ChannelBind{addr: dstAddr}`; the function always
returns `nil`. -/
def AddChannelBind (relayPort : Int) (channel : Nat) (dstAddr : TransportAddr)
    (servers : List Server) : List Server × Option String :=
  (servers.map (fun s =>
    if s.listeningPort = relayPort then
      { s with channelBindings := mapInsert channel ⟨dstAddr⟩ s.channelBindings }
    else s), none)

/-- The per-server test of the `GetChannelBind` loop:
`cb, ok := s.channelBindings[channel]; ok && cb.addr.Port == srcPort`. -/
def chanMatch (srcPort : Int) (channel : Nat) (s : Server) : Bool :=
  match mapLookup channel s.channelBindings with
  | some cb => decide (cb.addr.port = srcPort)
  | none => false

/-- `func GetChannelBind(srcPort int, channel uint16) (*stun.TransportAddr, bool)`:
first server holding a binding for `channel` whose bound address has port
`srcPort` yields its five-tuple's source address and `true`; otherwise
`(nil, false)`.  Only the port of the bound peer address is compared. -/
def GetChannelBind (srcPort : Int) (channel : Nat) (servers : List Server) :
    Option TransportAddr × Bool :=
  match servers.find? (chanMatch srcPort channel) with
  | some s => (some s.fiveTuple.srcAddr, true)
  | none => (none, false)

/-- Handle of the packet listener returned by `net.ListenPacket` (external);
only its identity matters to this core. -/
structure Listener where
  handle : Nat
deriving DecidableEq, Repr

/-- The values `Start` returns together with the registry it leaves behind and
whether `go relayHandler(s, listener)` was spawned. -/
structure StartResult where
  servers : List Server
  listeningPort : Int
  pumpStarted : Bool
  err : Option String
deriving DecidableEq, Repr

/-- `func Start(fiveTuple *FiveTuple, reservationToken string, lifetime uint32, username string) (listeningPort int, err error)`.
The two fallible external calls — `net.ListenPacket("udp", ":0")` and
`stun.NewTransportAddr(listener.LocalAddr())` — are passed in as parameters
(`none` models their error return).  On either failure Go returns
immediately with the zero-valued `listeningPort`; on success the new server
is appended to the registry and its relay pump is spawned. -/
def Start (listenResult : Option Listener)
    (resolveAddr : Listener → Option TransportAddr)
    (fiveTuple : FiveTuple) (reservationToken : String) (lifetime : Nat)
    (username : String) (servers : List Server) : StartResult :=
  match listenResult with
  | none => ⟨servers, 0, false, some "listen error"⟩
  | some listener =>
    match resolveAddr listener with
    | none => ⟨servers, 0, false, some "address resolution error"⟩
    | some listeningAddr =>
      ⟨servers ++ [{ fiveTuple := fiveTuple, reservationToken := reservationToken,
                     lifetime := lifetime, channelBindings := [],
                     listeningPort := listeningAddr.port, username := username,
                     permissions := [] }],
       listeningAddr.port, true, none⟩

/-- `*net.UDPAddr`, the concrete type behind the `net.Addr` returned by
`ReadFrom`. -/
structure UDPAddr where
  ip : List Nat
  port : Int
deriving DecidableEq, Repr

/-- The triple `n, srcAddr, err := l.ReadFrom(buffer)`.  `srcAddr` is an
interface value that a failed read may leave `nil`, hence `Option`. -/
structure ReadResult where
  n : Nat
  srcAddr : Option UDPAddr
  err : Option String
deriving DecidableEq, Repr

/-- How one iteration of the `relayHandler` loop ends. -/
inductive IterStep where
  /-- Restart the loop at the next `ReadFrom` without forwarding — the body
  contains no `continue`, so the embedding never produces this. -/
  | continueLoop
  /-- Runtime panic: `srcAddr.(*net.UDPAddr)` evaluated with `srcAddr` nil. -/
  | nilDereference
  /-- `stun.BuildAndSend` called towards `dst` with the peer-address
  attribute `(peerIP, peerPort)` and the data attribute `payload`. -/
  | sent (dst : TransportAddr) (peerIP : List Nat) (peerPort : Int)
      (payload : List Nat)
deriving DecidableEq, Repr

/-- One iteration of the `relayHandler` loop body, lines 200–209: after a
read, an error is only logged (`fmt.Println("Failing to relay")`); the body
then unconditionally evaluates `srcAddr.(*net.UDPAddr).IP` and `.Port`,
fills the data attribute with `buffer[:n]`, and sends the indication to the
allocation's client source address.  Returns the log lines produced and how
the iteration ends. -/
def relayHandlerIteration (s : Server) (buffer : List Nat) (r : ReadResult) :
    List String × IterStep :=
  let logs : List String := if r.err.isSome then ["Failing to relay"] else []
  match r.srcAddr with
  | none => (logs, IterStep.nilDereference)
  | some a => (logs, IterStep.sent s.fiveTuple.srcAddr a.ip a.port (buffer.take r.n))

theorem getServer_foldl_eq_rec (fiveTuple : FiveTuple) (l : List Server)
    (acc : Option Server) :
    l.foldl (fun a s => if fiveTuple.matches s.fiveTuple then some s else a) acc =
      match getServerRec fiveTuple l with
      | some t => some t
      | none => acc := by
  induction l generalizing acc with
  | nil => simp [getServerRec]
  | cons x rest ih =>
    simp only [List.foldl_cons, getServerRec, ih]
    cases getServerRec fiveTuple rest with
    | some t => rfl
    | none => by_cases h : fiveTuple.matches x.fiveTuple <;> simp [h]

theorem getServer_eq_rec (fiveTuple : FiveTuple) (l : List Server) :
    getServer fiveTuple l = getServerRec fiveTuple l := by
  have h := getServer_foldl_eq_rec fiveTuple l none
  unfold getServer
  rw [h]
  cases getServerRec fiveTuple l <;> rfl

theorem getServerRec_eq_getLast_filter (fiveTuple : FiveTuple) (l : List Server) :
    getServerRec fiveTuple l =
      (l.filter (fun s => fiveTuple.matches s.fiveTuple)).getLast? := by
  induction l with
  | nil => rfl
  | cons x rest ih =>
    simp only [getServerRec, ih, List.filter_cons]
    by_cases h : fiveTuple.matches x.fiveTuple
    · simp only [h, if_pos]
      cases hrest : (rest.filter (fun s => fiveTuple.matches s.fiveTuple)) with
      | nil => simp
      | cons y ys =>
        rw [List.getLast?_cons_cons]
        cases hl : (y :: ys).getLast? with
        | some t => rfl
        | none => exact absurd (List.getLast?_eq_none_iff.mp hl) (List.cons_ne_nil y ys)
    · simp only [h, if_neg, Bool.false_eq_true, not_false_eq_true]
      cases (rest.filter (fun s => fiveTuple.matches s.fiveTuple)).getLast? <;> rfl

theorem getServerRec_eq_none_iff (fiveTuple : FiveTuple) (l : List Server) :
    getServerRec fiveTuple l = none ↔
      ∀ s ∈ l, fiveTuple.matches s.fiveTuple = false := by
  induction l with
  | nil => simp [getServerRec]
  | cons x rest ih =>
    simp only [getServerRec, List.mem_cons]
    cases hrest : getServerRec fiveTuple rest with
    | some t =>
      simp only [reduceCtorEq, false_iff]
      intro hall
      have : ∀ s ∈ rest, fiveTuple.matches s.fiveTuple = false := by
        intro s hs; exact hall s (Or.inr hs)
      rw [ih.mpr this] at hrest
      exact (Option.noConfusion hrest)
    | none =>
      by_cases h : fiveTuple.matches x.fiveTuple
      · simp only [h, if_pos, reduceCtorEq, false_iff]
        intro hall
        have := hall x (Or.inl rfl)
        rw [h] at this
        exact Bool.noConfusion this
      · simp only [h, if_neg, Bool.not_eq_true]
        constructor
        · intro _ s hs
          rcases hs with hx | hr
          · subst hx; exact Bool.eq_false_iff.mpr h
          · exact (ih.mp hrest) s hr
        · intro _; trivial

theorem mapLookup_mapInsert (k : Nat) (v : ChannelBind)
    (m : List (Nat × ChannelBind)) : mapLookup k (mapInsert k v m) = some v := by
  induction m with
  | nil => simp [mapInsert, mapLookup]
  | cons kv rest ih =>
    obtain ⟨k', v'⟩ := kv
    by_cases h : k' = k
    · simp [mapInsert, mapLookup, h]
    · simp [mapInsert, mapLookup, h, ih]

theorem getServerIdx_eq_none_iff (fiveTuple : FiveTuple) (l : List Server) :
    getServerIdx fiveTuple l = none ↔
      ∀ s ∈ l, fiveTuple.matches s.fiveTuple = false := by
  induction l with
  | nil => simp [getServerIdx]
  | cons x rest ih =>
    simp only [getServerIdx, List.mem_cons]
    cases hrest : getServerIdx fiveTuple rest with
    | some jt =>
      simp only [reduceCtorEq, false_iff]
      intro hall
      have : ∀ s ∈ rest, fiveTuple.matches s.fiveTuple = false := by
        intro s hs; exact hall s (Or.inr hs)
      rw [ih.mpr this] at hrest
      exact Option.noConfusion hrest
    | none =>
      by_cases h : fiveTuple.matches x.fiveTuple
      · simp only [h, if_pos, reduceCtorEq, false_iff]
        intro hall
        have := hall x (Or.inl rfl)
        rw [h] at this
        exact Bool.noConfusion this
      · simp only [h, if_neg, Bool.false_eq_true, not_false_eq_true]
        constructor
        · intro _ s hs
          rcases hs with hx | hr
          · subst hx; exact Bool.eq_false_iff.mpr h
          · exact (ih.mp hrest) s hr
        · intro _; trivial

theorem getServerIdx_some_spec (fiveTuple : FiveTuple) (l : List Server)
    (i : Nat) (s : Server) (h : getServerIdx fiveTuple l = some (i, s)) :
    l[i]? = some s ∧ s ∈ l ∧ fiveTuple.matches s.fiveTuple = true := by
  induction l generalizing i with
  | nil => exact Option.noConfusion h
  | cons x rest ih =>
    simp only [getServerIdx] at h
    cases hrest : getServerIdx fiveTuple rest with
    | some jt =>
      obtain ⟨j, t⟩ := jt
      rw [hrest] at h
      have hi : j + 1 = i ∧ t = s := by
        have := Option.some.inj h
        exact ⟨congrArg Prod.fst this, congrArg Prod.snd this⟩
      obtain ⟨hji, hts⟩ := hi
      subst hji; subst hts
      obtain ⟨hget, hmem, hmatch⟩ := ih j hrest
      exact ⟨by simpa [List.getElem?_cons_succ] using hget,
        List.mem_cons_of_mem x hmem, hmatch⟩
    | none =>
      rw [hrest] at h
      by_cases hm : fiveTuple.matches x.fiveTuple
      · rw [if_pos hm] at h
        have := Option.some.inj h
        have h0 : (0 : Nat) = i := congrArg Prod.fst this
        have hxs : x = s := congrArg Prod.snd this
        subst h0; subst hxs
        exact ⟨List.getElem?_cons_zero, List.mem_cons_self x rest, hm⟩
      · rw [if_neg hm] at h
        exact Option.noConfusion h

theorem getServerIdx_set_stable (fiveTuple : FiveTuple) (l : List Server)
    (i : Nat) (s s' : Server) (h : getServerIdx fiveTuple l = some (i, s))
    (hft : s'.fiveTuple = s.fiveTuple) :
    getServerIdx fiveTuple (l.set i s') = some (i, s') := by
  induction l generalizing i with
  | nil => exact Option.noConfusion h
  | cons x rest ih =>
    simp only [getServerIdx] at h
    cases hrest : getServerIdx fiveTuple rest with
    | some jt =>
      obtain ⟨j, t⟩ := jt
      rw [hrest] at h
      have := Option.some.inj h
      have hji : j + 1 = i := congrArg Prod.fst this
      have hts : t = s := congrArg Prod.snd this
      subst hts
      subst hji
      rw [List.set_cons_succ]
      simp only [getServerIdx, ih j hrest]
    | none =>
      rw [hrest] at h
      by_cases hm : fiveTuple.matches x.fiveTuple
      · rw [if_pos hm] at h
        have := Option.some.inj h
        have h0 : (0 : Nat) = i := congrArg Prod.fst this
        have hxs : x = s := congrArg Prod.snd this
        subst h0
        rw [List.set_cons_zero]
        have hm' : fiveTuple.matches s'.fiveTuple = true := by
          rw [hft, ← hxs]; exact hm
        simp only [getServerIdx, hrest, hm', if_pos]
      · rw [if_neg hm] at h
        exact Option.noConfusion h

theorem addPermServer_fiveTuple (permission : Permission) (s : Server) :
    (addPermServer permission s).fiveTuple = s.fiveTuple := by
  unfold addPermServer
  by_cases h : s.permissions.any (samePair permission) <;> simp [h]

theorem samePair_self (permission : Permission) :
    samePair permission permission = true := by
  simp [samePair]

theorem addPermServer_idem (permission : Permission) (s : Server) :
    addPermServer permission (addPermServer permission s) =
      addPermServer permission s := by
  unfold addPermServer
  by_cases h : s.permissions.any (samePair permission)
  · simp [h]
  · simp only [h, Bool.false_eq_true, if_neg, not_false_eq_true]
    have : (s.permissions ++ [permission]).any (samePair permission) = true := by
      rw [List.any_eq_true]
      exact ⟨permission, by simp, samePair_self permission⟩
    simp [this]

theorem addPermServer_countP (permission : Permission) (s : Server)
    (hcount : s.permissions.countP (samePair permission) ≤ 1) :
    (addPermServer permission s).permissions.countP (samePair permission) = 1 := by
  unfold addPermServer
  by_cases h : s.permissions.any (samePair permission)
  · rw [if_pos h]
    have hpos : 0 < s.permissions.countP (samePair permission) := by
      rw [List.countP_pos_iff]
      exact List.any_eq_true.mp h
    omega
  · rw [if_neg h]
    have hzero : s.permissions.countP (samePair permission) = 0 := by
      by_contra hne
      have hpos : 0 < s.permissions.countP (samePair permission) := Nat.pos_of_ne_zero hne
      obtain ⟨a, ha, hpa⟩ := List.countP_pos_iff.mp hpos
      exact h (List.any_eq_true.mpr ⟨a, ha, hpa⟩)
    simp [List.countP_append, hzero, List.countP_cons, samePair_self]

theorem addPermServer_permissions (permission : Permission) (s : Server) :
    (addPermServer permission s).permissions = s.permissions ∨
      (addPermServer permission s).permissions = s.permissions ++ [permission] := by
  unfold addPermServer
  by_cases h : s.permissions.any (samePair permission) <;> simp [h]

/-- **C8.** `FiveTuple.match` returns true iff the source addresses, the
destination addresses and the protocols are pairwise equal by value.  The
embedding is a pure Lean function, so the comparison has no side effects. -/
theorem fiveTuple_matches_iff (a b : FiveTuple) :
    a.matches b = true ↔
      a.srcAddr = b.srcAddr ∧ a.dstAddr = b.dstAddr ∧ a.protocol = b.protocol := by
  simp [FiveTuple.matches, and_assoc]

/-- **C3.** `getServer` scans the registry in insertion order with no break,
so it returns the last-inserted matching allocation (the last element of the
matching sublist); `Fulfilled` is true exactly when this lookup returns a
result. -/
theorem getServer_last_match_and_fulfilled (fiveTuple : FiveTuple) (servers : List Server) :
    getServer fiveTuple servers =
        (servers.filter (fun s => fiveTuple.matches s.fiveTuple)).getLast? ∧
      (Fulfilled fiveTuple servers = true ↔ (getServer fiveTuple servers).isSome) := by
  refine ⟨?_, ?_⟩
  · rw [getServer_eq_rec, getServerRec_eq_getLast_filter]
  · simp [Fulfilled]

/-- **C2.** `AddPermission` is idempotent: for the allocation found for the
five-tuple (the last match, at index `i`), calling it twice with the same
`(IP, Port)` pair returns no error on the second call and leaves the state of
the first call unchanged; the permission list ends with exactly one entry for
the pair, and the stored entries (their `timeToExpiry` included) are
untouched — the list is either unchanged or extended by the new entry at the
end.  The hypothesis `hcount` is the invariant `AddPermission` itself
maintains: at most one stored entry per `(IP, Port)` pair. -/
theorem addPermission_idempotent (fiveTuple : FiveTuple) (permission : Permission)
    (servers : List Server) (i : Nat) (s : Server)
    (hfind : getServerIdx fiveTuple servers = some (i, s))
    (hcount : s.permissions.countP (samePair permission) ≤ 1) :
    (AddPermission fiveTuple permission servers).2 = none ∧
    AddPermission fiveTuple permission
        (AddPermission fiveTuple permission servers).1 =
      ((AddPermission fiveTuple permission servers).1, none) ∧
    getServerIdx fiveTuple (AddPermission fiveTuple permission servers).1 =
      some (i, addPermServer permission s) ∧
    (addPermServer permission s).permissions.countP (samePair permission) = 1 ∧
    ((addPermServer permission s).permissions = s.permissions ∨
      (addPermServer permission s).permissions = s.permissions ++ [permission]) := by
  have h1 : AddPermission fiveTuple permission servers =
      (servers.set i (addPermServer permission s), none) := by
    simp [AddPermission, hfind]
  have hstable : getServerIdx fiveTuple (servers.set i (addPermServer permission s)) =
      some (i, addPermServer permission s) :=
    getServerIdx_set_stable fiveTuple servers i s (addPermServer permission s) hfind
      (addPermServer_fiveTuple permission s)
  refine ⟨by rw [h1], ?_, ?_, addPermServer_countP permission s hcount,
    addPermServer_permissions permission s⟩
  · rw [h1]
    simp only [AddPermission, hstable, addPermServer_idem, List.set_set]
  · rw [h1]
    exact hstable

/-- **C2 witness.** A registry with one allocation; adding the same
permission twice stores it once and the second call is a no-op. -/
theorem addPermission_idempotent_witness :
    (AddPermission ⟨⟨[192, 168, 0, 2], 40000⟩, ⟨[10, 0, 0, 1], 3478⟩, Protocol.udp⟩
        ⟨[1, 2, 3, 4], 9000, 300⟩
        [⟨⟨⟨[192, 168, 0, 2], 40000⟩, ⟨[10, 0, 0, 1], 3478⟩, Protocol.udp⟩,
          50000, "", "u", 600, [], []⟩]).2 = none ∧
    (addPermServer ⟨[1, 2, 3, 4], 9000, 300⟩
        ⟨⟨⟨[192, 168, 0, 2], 40000⟩, ⟨[10, 0, 0, 1], 3478⟩, Protocol.udp⟩,
          50000, "", "u", 600, [], []⟩).permissions.countP
      (samePair ⟨[1, 2, 3, 4], 9000, 300⟩) = 1 := by
  have h := addPermission_idempotent
    ⟨⟨[192, 168, 0, 2], 40000⟩, ⟨[10, 0, 0, 1], 3478⟩, Protocol.udp⟩
    ⟨[1, 2, 3, 4], 9000, 300⟩
    [⟨⟨⟨[192, 168, 0, 2], 40000⟩, ⟨[10, 0, 0, 1], 3478⟩, Protocol.udp⟩,
      50000, "", "u", 600, [], []⟩]
    0
    ⟨⟨⟨[192, 168, 0, 2], 40000⟩, ⟨[10, 0, 0, 1], 3478⟩, Protocol.udp⟩,
      50000, "", "u", 600, [], []⟩
    (by decide) (by decide)
  exact ⟨h.1, h.2.2.2.1⟩

/-- **C6.** `AddPermission` returns the `AllocationNotFoundError` iff no
registered allocation matches the five-tuple, and returns no error when a
match exists. -/
theorem addPermission_not_found_iff (fiveTuple : FiveTuple)
    (permission : Permission) (servers : List Server) :
    ((AddPermission fiveTuple permission servers).2.isSome ↔
      ∀ s ∈ servers, fiveTuple.matches s.fiveTuple = false) ∧
    ((∃ s ∈ servers, fiveTuple.matches s.fiveTuple = true) →
      (AddPermission fiveTuple permission servers).2 = none) := by
  cases h : getServerIdx fiveTuple servers with
  | none =>
    refine ⟨?_, ?_⟩
    · simp only [AddPermission, h, Option.isSome_some, true_iff]
      exact (getServerIdx_eq_none_iff fiveTuple servers).mp h
    · rintro ⟨s, hs, hm⟩
      have := (getServerIdx_eq_none_iff fiveTuple servers).mp h s hs
      rw [hm] at this
      exact Bool.noConfusion this
  | some it =>
    obtain ⟨i, s⟩ := it
    obtain ⟨_, hmem, hmatch⟩ := getServerIdx_some_spec fiveTuple servers i s h
    refine ⟨?_, fun _ => by simp [AddPermission, h]⟩
    simp only [AddPermission, h, Option.isSome_none, Bool.false_eq_true, false_iff]
    intro hall
    have := hall s hmem
    rw [hmatch] at this
    exact Bool.noConfusion this

/-- **C6 witness.** On the empty registry the error is returned; on a registry
holding a matching allocation it is not. -/
theorem addPermission_not_found_iff_witness :
    (AddPermission ⟨⟨[192, 168, 0, 2], 40000⟩, ⟨[10, 0, 0, 1], 3478⟩, Protocol.udp⟩
        ⟨[1, 2, 3, 4], 9000, 300⟩ []).2.isSome ∧
    (AddPermission ⟨⟨[192, 168, 0, 2], 40000⟩, ⟨[10, 0, 0, 1], 3478⟩, Protocol.udp⟩
        ⟨[1, 2, 3, 4], 9000, 300⟩
        [⟨⟨⟨[192, 168, 0, 2], 40000⟩, ⟨[10, 0, 0, 1], 3478⟩, Protocol.udp⟩,
          50000, "", "u", 600, [], []⟩]).2 = none := by
  constructor
  · exact (addPermission_not_found_iff
      ⟨⟨[192, 168, 0, 2], 40000⟩, ⟨[10, 0, 0, 1], 3478⟩, Protocol.udp⟩
      ⟨[1, 2, 3, 4], 9000, 300⟩ []).1.mpr
      (by intro s hs; exact absurd hs (List.not_mem_nil s))
  · exact (addPermission_not_found_iff
      ⟨⟨[192, 168, 0, 2], 40000⟩, ⟨[10, 0, 0, 1], 3478⟩, Protocol.udp⟩
      ⟨[1, 2, 3, 4], 9000, 300⟩
      [⟨⟨⟨[192, 168, 0, 2], 40000⟩, ⟨[10, 0, 0, 1], 3478⟩, Protocol.udp⟩,
        50000, "", "u", 600, [], []⟩]).2
      ⟨⟨⟨⟨[192, 168, 0, 2], 40000⟩, ⟨[10, 0, 0, 1], 3478⟩, Protocol.udp⟩,
        50000, "", "u", 600, [], []⟩, by decide, by decide⟩

/-- **C5.** `AddChannelBind` always returns `nil`, and when no registered
allocation listens on `relayPort` it leaves every allocation's binding state
unchanged (a silent no-op) — in contrast to `AddPermission`, which returns an
error whenever its five-tuple lookup misses. -/
theorem addChannelBind_permissive_noop (relayPort : Int) (channel : Nat)
    (dstAddr : TransportAddr) (servers : List Server) (fiveTuple : FiveTuple)
    (permission : Permission) :
    (AddChannelBind relayPort channel dstAddr servers).2 = none ∧
    ((∀ s ∈ servers, s.listeningPort ≠ relayPort) →
      (AddChannelBind relayPort channel dstAddr servers).1 = servers) ∧
    ((∀ s ∈ servers, fiveTuple.matches s.fiveTuple = false) →
      (AddPermission fiveTuple permission servers).2.isSome) := by
  refine ⟨rfl, ?_, ?_⟩
  · intro hmiss
    have : servers.map (fun s =>
        if s.listeningPort = relayPort then
          { s with channelBindings := mapInsert channel ⟨dstAddr⟩ s.channelBindings }
        else s) = servers.map id := by
      refine List.map_congr_left ?_
      intro s hs
      simp [hmiss s hs]
    simp only [AddChannelBind, this, List.map_id]
  · intro hall
    have hnone := (getServerIdx_eq_none_iff fiveTuple servers).mpr hall
    simp [AddPermission, hnone]

/-- **C5 witness.** Binding on a port nobody listens on returns no error and
changes nothing, while `AddPermission` with an unmatched five-tuple errors. -/
theorem addChannelBind_permissive_noop_witness :
    (AddChannelBind 1 16384 ⟨[1, 2, 3, 4], 9000⟩
        [⟨⟨⟨[192, 168, 0, 2], 40000⟩, ⟨[10, 0, 0, 1], 3478⟩, Protocol.udp⟩,
          50000, "", "u", 600, [], []⟩]).2 = none ∧
    (AddChannelBind 1 16384 ⟨[1, 2, 3, 4], 9000⟩
        [⟨⟨⟨[192, 168, 0, 2], 40000⟩, ⟨[10, 0, 0, 1], 3478⟩, Protocol.udp⟩,
          50000, "", "u", 600, [], []⟩]).1 =
      [⟨⟨⟨[192, 168, 0, 2], 40000⟩, ⟨[10, 0, 0, 1], 3478⟩, Protocol.udp⟩,
        50000, "", "u", 600, [], []⟩] := by
  have h := addChannelBind_permissive_noop 1 16384 ⟨[1, 2, 3, 4], 9000⟩
    [⟨⟨⟨[192, 168, 0, 2], 40000⟩, ⟨[10, 0, 0, 1], 3478⟩, Protocol.udp⟩,
      50000, "", "u", 600, [], []⟩]
    ⟨⟨[192, 168, 0, 2], 40000⟩, ⟨[10, 0, 0, 1], 3478⟩, Protocol.udp⟩
    ⟨[1, 2, 3, 4], 9000, 300⟩
  exact ⟨h.1, h.2.1 (by decide)⟩

/-- **C7.** `GetSrcForRelay` returns its `NotFoundError` exactly when no
registered allocation's listening port equals the queried port, and
`GetRelayForSrc` returns its `NotFoundError` exactly when no registered
allocation's client source address equals the queried address; on success
each returns the (first) owning allocation's source address, respectively
listening port. -/
theorem relay_lookups_not_found (addr : TransportAddr) (servers : List Server) :
    ((GetSrcForRelay addr servers).2.isSome ↔
      ∀ s ∈ servers, addr.port ≠ s.listeningPort) ∧
    ((∃ s ∈ servers, addr.port = s.listeningPort) →
      ∃ s ∈ servers, addr.port = s.listeningPort ∧
        GetSrcForRelay addr servers = (some s.fiveTuple.srcAddr, none)) ∧
    ((GetRelayForSrc addr servers).2.isSome ↔
      ∀ s ∈ servers, s.fiveTuple.srcAddr ≠ addr) ∧
    ((∃ s ∈ servers, s.fiveTuple.srcAddr = addr) →
      ∃ s ∈ servers, s.fiveTuple.srcAddr = addr ∧
        GetRelayForSrc addr servers = (s.listeningPort, none)) := by
  refine ⟨?_, ?_, ?_, ?_⟩
  · cases hf : servers.find? (fun s => decide (addr.port = s.listeningPort)) with
    | none =>
      simp only [GetSrcForRelay, hf, Option.isSome_some, true_iff]
      intro s hs
      have := List.find?_eq_none.mp hf s hs
      simpa using this
    | some s =>
      simp only [GetSrcForRelay, hf, Option.isSome_none, Bool.false_eq_true, false_iff]
      intro hall
      exact hall s (List.mem_of_find?_eq_some hf)
        (by simpa using List.find?_some hf)
  · rintro ⟨s, hs, hp⟩
    have hsome : (servers.find? (fun s => decide (addr.port = s.listeningPort))).isSome :=
      List.find?_isSome.mpr ⟨s, hs, by simpa using hp⟩
    obtain ⟨t, ht⟩ := Option.isSome_iff_exists.mp hsome
    exact ⟨t, List.mem_of_find?_eq_some ht, by simpa using List.find?_some ht,
      by simp [GetSrcForRelay, ht]⟩
  · cases hf : servers.find? (fun s => decide (s.fiveTuple.srcAddr = addr)) with
    | none =>
      simp only [GetRelayForSrc, hf, Option.isSome_some, true_iff]
      intro s hs
      have := List.find?_eq_none.mp hf s hs
      simpa using this
    | some s =>
      simp only [GetRelayForSrc, hf, Option.isSome_none, Bool.false_eq_true, false_iff]
      intro hall
      exact hall s (List.mem_of_find?_eq_some hf)
        (by simpa using List.find?_some hf)
  · rintro ⟨s, hs, hp⟩
    have hsome : (servers.find? (fun s => decide (s.fiveTuple.srcAddr = addr))).isSome :=
      List.find?_isSome.mpr ⟨s, hs, by simpa using hp⟩
    obtain ⟨t, ht⟩ := Option.isSome_iff_exists.mp hsome
    exact ⟨t, List.mem_of_find?_eq_some ht, by simpa using List.find?_some ht,
      by simp [GetRelayForSrc, ht]⟩

/-- **C7 witness.** Both lookups fail on the empty registry and succeed on a
registry holding the matching allocation. -/
theorem relay_lookups_not_found_witness :
    (GetSrcForRelay ⟨[9, 9, 9, 9], 50000⟩ []).2.isSome ∧
    (GetRelayForSrc ⟨[192, 168, 0, 2], 40000⟩ []).2.isSome ∧
    GetSrcForRelay ⟨[9, 9, 9, 9], 50000⟩
        [⟨⟨⟨[192, 168, 0, 2], 40000⟩, ⟨[10, 0, 0, 1], 3478⟩, Protocol.udp⟩,
          50000, "", "u", 600, [], []⟩] =
      (some ⟨[192, 168, 0, 2], 40000⟩, none) := by
  refine ⟨?_, ?_, ?_⟩
  · exact (relay_lookups_not_found ⟨[9, 9, 9, 9], 50000⟩ []).1.mpr
      (by intro s hs; exact absurd hs (List.not_mem_nil s))
  · exact (relay_lookups_not_found ⟨[192, 168, 0, 2], 40000⟩ []).2.2.1.mpr
      (by intro s hs; exact absurd hs (List.not_mem_nil s))
  · obtain ⟨t, _, _, h⟩ := (relay_lookups_not_found ⟨[9, 9, 9, 9], 50000⟩
      [⟨⟨⟨[192, 168, 0, 2], 40000⟩, ⟨[10, 0, 0, 1], 3478⟩, Protocol.udp⟩,
        50000, "", "u", 600, [], []⟩]).2.1
      ⟨⟨⟨⟨[192, 168, 0, 2], 40000⟩, ⟨[10, 0, 0, 1], 3478⟩, Protocol.udp⟩,
        50000, "", "u", 600, [], []⟩, by decide, by decide⟩
    rename_i hmem _
    rcases List.mem_singleton.mp hmem with rfl
    exact h

/-- **C4.** For a live allocation with client source address `s`,
`GetRelayForSrc` succeeds, and `GetSrcForRelay` applied to any address
carrying the returned port yields `s` again.  Liveness of all registered
allocations is reflected by the hypothesis that listening ports are pairwise
distinct: each live allocation owns a live UDP socket, and the operating
system never assigns the same local port to two of them at once. -/
theorem relay_port_roundtrip (servers : List Server) (s : Server)
    (hmem : s ∈ servers)
    (hports : (servers.map Server.listeningPort).Nodup) :
    (GetRelayForSrc s.fiveTuple.srcAddr servers).2 = none ∧
    ∀ addr : TransportAddr,
      addr.port = (GetRelayForSrc s.fiveTuple.srcAddr servers).1 →
      GetSrcForRelay addr servers = (some s.fiveTuple.srcAddr, none) := by
  have hsome : (servers.find?
      (fun t => decide (t.fiveTuple.srcAddr = s.fiveTuple.srcAddr))).isSome :=
    List.find?_isSome.mpr ⟨s, hmem, by simp⟩
  obtain ⟨s₁, hf₁⟩ := Option.isSome_iff_exists.mp hsome
  have hs₁src : s₁.fiveTuple.srcAddr = s.fiveTuple.srcAddr := by
    simpa using List.find?_some hf₁
  have hs₁mem : s₁ ∈ servers := List.mem_of_find?_eq_some hf₁
  refine ⟨by simp [GetRelayForSrc, hf₁], ?_⟩
  intro addr haddr
  have h1 : (GetRelayForSrc s.fiveTuple.srcAddr servers).1 = s₁.listeningPort := by
    simp [GetRelayForSrc, hf₁]
  rw [h1] at haddr
  have hsome₂ : (servers.find? (fun t => decide (addr.port = t.listeningPort))).isSome :=
    List.find?_isSome.mpr ⟨s₁, hs₁mem, by simpa using haddr⟩
  obtain ⟨s₂, hf₂⟩ := Option.isSome_iff_exists.mp hsome₂
  have hs₂port : addr.port = s₂.listeningPort := by
    simpa using List.find?_some hf₂
  have hs₂mem : s₂ ∈ servers := List.mem_of_find?_eq_some hf₂
  have heq : s₂ = s₁ := by
    refine List.inj_on_of_nodup_map hports hs₂mem hs₁mem ?_
    show s₂.listeningPort = s₁.listeningPort
    rw [← hs₂port, haddr]
  subst heq
  simp [GetSrcForRelay, hf₂, hs₁src]

/-- **C4 witness.** The round trip evaluated on a concrete one-allocation
registry. -/
theorem relay_port_roundtrip_witness :
    (GetRelayForSrc ⟨[192, 168, 0, 2], 40000⟩
        [⟨⟨⟨[192, 168, 0, 2], 40000⟩, ⟨[10, 0, 0, 1], 3478⟩, Protocol.udp⟩,
          50000, "", "u", 600, [], []⟩]).2 = none ∧
    GetSrcForRelay ⟨[9, 9, 9, 9], 50000⟩
        [⟨⟨⟨[192, 168, 0, 2], 40000⟩, ⟨[10, 0, 0, 1], 3478⟩, Protocol.udp⟩,
          50000, "", "u", 600, [], []⟩] =
      (some ⟨[192, 168, 0, 2], 40000⟩, none) := by
  have h := relay_port_roundtrip
    [⟨⟨⟨[192, 168, 0, 2], 40000⟩, ⟨[10, 0, 0, 1], 3478⟩, Protocol.udp⟩,
      50000, "", "u", 600, [], []⟩]
    ⟨⟨⟨[192, 168, 0, 2], 40000⟩, ⟨[10, 0, 0, 1], 3478⟩, Protocol.udp⟩,
      50000, "", "u", 600, [], []⟩
    (by decide) (by decide)
  exact ⟨h.1, h.2 ⟨[9, 9, 9, 9], 50000⟩ (by decide)⟩

/-- **C1.** `AddChannelBind` on the relay port of the allocation for
five-tuple `T` followed by `GetChannelBind` with the same channel and a
source port equal to the bound peer address's port returns `T`'s client
source address and `found = true`.  Every field of `peerAddr` other than its
port is unconstrained, so the resolution matches on the bound peer address's
port only, never on its IP.  The ports-`Nodup` hypothesis reflects liveness
(distinct live sockets listen on distinct ports) and `hfresh` says no other
allocation already holds a binding for `channel` whose peer port collides. -/
theorem bindChannel_then_resolveBinding (servers : List Server) (s : Server)
    (channel : Nat) (peerAddr : TransportAddr)
    (hmem : s ∈ servers)
    (hports : (servers.map Server.listeningPort).Nodup)
    (hfresh : ∀ t ∈ servers, t ≠ s → chanMatch peerAddr.port channel t = false) :
    GetChannelBind peerAddr.port channel
      (AddChannelBind s.listeningPort channel peerAddr servers).1 =
      (some s.fiveTuple.srcAddr, true) := by
  induction servers with
  | nil => exact absurd hmem (List.not_mem_nil s)
  | cons x rest ih =>
    by_cases hx : x = s
    · subst hx
      have hpred : chanMatch peerAddr.port channel
          { x with channelBindings :=
              mapInsert channel ⟨peerAddr⟩ x.channelBindings } = true := by
        simp [chanMatch, mapLookup_mapInsert]
      simp only [AddChannelBind, List.map_cons, GetChannelBind, if_true]
      rw [List.find?_cons_of_pos _ hpred]
    · have hsrest : s ∈ rest := by
        rcases List.mem_cons.mp hmem with h | h
        · exact absurd h.symm hx
        · exact h
      have hp' : (x.listeningPort :: rest.map Server.listeningPort).Nodup := by
        rw [List.map_cons] at hports
        exact hports
      have hxport : x.listeningPort ≠ s.listeningPort := by
        intro he
        exact (List.nodup_cons.mp hp').1
          (he ▸ List.mem_map_of_mem Server.listeningPort hsrest)
      have hxpred : chanMatch peerAddr.port channel x = false :=
        hfresh x (List.mem_cons_self x rest) hx
      simp only [AddChannelBind, List.map_cons, GetChannelBind]
      rw [if_neg hxport]
      rw [List.find?_cons_of_neg _ (by simp [hxpred])]
      have hrec := ih hsrest (List.nodup_cons.mp hp').2
        (fun t ht hts => hfresh t (List.mem_cons_of_mem x ht) hts)
      simpa [AddChannelBind, GetChannelBind] using hrec

/-- **C1 witness.** Bind channel `0x4000` to peer `1.2.3.4:9000` on the one
allocation's relay port, then resolve with source port `9000`. -/
theorem bindChannel_then_resolveBinding_witness :
    GetChannelBind 9000 16384
        (AddChannelBind 50000 16384 ⟨[1, 2, 3, 4], 9000⟩
          [⟨⟨⟨[192, 168, 0, 2], 40000⟩, ⟨[10, 0, 0, 1], 3478⟩, Protocol.udp⟩,
            50000, "", "u", 600, [], []⟩]).1 =
      (some ⟨[192, 168, 0, 2], 40000⟩, true) :=
  bindChannel_then_resolveBinding
    [⟨⟨⟨[192, 168, 0, 2], 40000⟩, ⟨[10, 0, 0, 1], 3478⟩, Protocol.udp⟩,
      50000, "", "u", 600, [], []⟩]
    ⟨⟨⟨[192, 168, 0, 2], 40000⟩, ⟨[10, 0, 0, 1], 3478⟩, Protocol.udp⟩,
      50000, "", "u", 600, [], []⟩
    16384 ⟨[1, 2, 3, 4], 9000⟩ (by decide) (by decide) (by decide)

/-- **C9.** `Start` is atomic on failure: when the socket bind or the
local-address resolution fails, the error is returned with the registry
exactly as it was and no relay pump spawned. -/
theorem start_failure_atomic (listenResult : Option Listener)
    (resolveAddr : Listener → Option TransportAddr) (fiveTuple : FiveTuple)
    (reservationToken : String) (lifetime : Nat) (username : String)
    (servers : List Server)
    (hfail : listenResult = none ∨
      ∃ l, listenResult = some l ∧ resolveAddr l = none) :
    (Start listenResult resolveAddr fiveTuple reservationToken lifetime
        username servers).servers = servers ∧
    (Start listenResult resolveAddr fiveTuple reservationToken lifetime
        username servers).pumpStarted = false ∧
    (Start listenResult resolveAddr fiveTuple reservationToken lifetime
        username servers).err.isSome := by
  rcases hfail with h | ⟨l, hl, hr⟩
  · subst h
    exact ⟨rfl, rfl, rfl⟩
  · subst hl
    simp [Start, hr]

/-- **C9 witness.** A failing socket bind leaves the empty registry empty. -/
theorem start_failure_atomic_witness :
    (Start none (fun _ => none)
        ⟨⟨[192, 168, 0, 2], 40000⟩, ⟨[10, 0, 0, 1], 3478⟩, Protocol.udp⟩
        "" 600 "" []).servers = [] ∧
    (Start none (fun _ => none)
        ⟨⟨[192, 168, 0, 2], 40000⟩, ⟨[10, 0, 0, 1], 3478⟩, Protocol.udp⟩
        "" 600 "" []).pumpStarted = false :=
  ⟨(start_failure_atomic none (fun _ => none)
      ⟨⟨[192, 168, 0, 2], 40000⟩, ⟨[10, 0, 0, 1], 3478⟩, Protocol.udp⟩
      "" 600 "" [] (Or.inl rfl)).1,
   (start_failure_atomic none (fun _ => none)
      ⟨⟨[192, 168, 0, 2], 40000⟩, ⟨[10, 0, 0, 1], 3478⟩, Protocol.udp⟩
      "" 600 "" [] (Or.inl rfl)).2.1⟩

/-- **C10.** A failed read does not skip the forwarding step of the
`relayHandler` loop: the error is only logged, after which the body still
casts and dereferences the returned source address, so with the `nil` source
address a failed read leaves behind, the nil-dereference is reached; with a
non-nil source address the send still happens; and no iteration ever
restarts at the next receive without falling through the forwarding code. -/
theorem relayHandler_read_error_no_skip (s : Server) (buffer : List Nat)
    (n : Nat) (e : String) :
    (relayHandlerIteration s buffer ⟨n, none, some e⟩).2 =
        IterStep.nilDereference ∧
    (relayHandlerIteration s buffer ⟨n, none, some e⟩).1 =
        ["Failing to relay"] ∧
    (∀ a : UDPAddr, (relayHandlerIteration s buffer ⟨n, some a, some e⟩).2 =
        IterStep.sent s.fiveTuple.srcAddr a.ip a.port (buffer.take n)) ∧
    (∀ r : ReadResult,
        (relayHandlerIteration s buffer r).2 ≠ IterStep.continueLoop) := by
  refine ⟨rfl, rfl, fun a => rfl, ?_⟩
  intro r
  cases hsrc : r.srcAddr with
  | none => simp [relayHandlerIteration, hsrc]
  | some a => simp [relayHandlerIteration, hsrc]

/-- **C10 witness.** A concrete failed read with a nil source address ends in
the nil dereference, after logging. -/
theorem relayHandler_read_error_no_skip_witness :
    (relayHandlerIteration
        ⟨⟨⟨[192, 168, 0, 2], 40000⟩, ⟨[10, 0, 0, 1], 3478⟩, Protocol.udp⟩,
          50000, "", "u", 600, [], []⟩
        [7, 7, 7] ⟨2, none, some "read failed"⟩).2 =
      IterStep.nilDereference :=
  (relayHandler_read_error_no_skip
    ⟨⟨⟨[192, 168, 0, 2], 40000⟩, ⟨[10, 0, 0, 1], 3478⟩, Protocol.udp⟩,
      50000, "", "u", 600, [], []⟩
    [7, 7, 7] 2 "read failed").1

end RelayServer
